import Mathlib

/-! The fitness metrics of `utilities.hpp` (pso_registration)

A shallow embedding of the statistic functions of
`include/pso_registration/utilities.hpp` and theorems about them.

Modelling conventions.

* `float` / `double` values are idealised as exact rationals (`ℚ`): rounding,
  infinities and NaN are not represented.  A floating division whose divisor is
  zero is therefore not given a value; it is reported as `Outcome.zeroDivide`.
* Every metric function first fills a vector with one nearest-neighbour squared
  distance per point of `cloud1` (the `kdtree.nearestKSearch` loop, a PCL
  facility).  That vector, in source order, is the argument `D` of the functions
  below; the embedding starts right after that loop.
* `std::vector::operator[]` past the end is undefined behaviour in C++; the
  embedding reports it as `Outcome.outOfBounds`.
* `std::sort` on numbers is embedded as insertion sort with `≤`; the sorted
  result of a list of numbers does not depend on the algorithm.
* Container sizes are taken to fit in an `int`, so the counters of the source
  (`int num_filtered`, `int i`) are natural numbers.
* `euler2Quaternion` is embedded over any field, with `cos` and `sin` as
  parameters; the quaternion built from an `Eigen::AngleAxisd` and the
  quaternion product follow the definitions of Eigen.  The theorems on it are
  stated over the reals with `Real.cos` and `Real.sin`.
* `pcl::euclideanDistance` is the square root of the squared coordinate
  difference, with the square root as a parameter.
* Where a `float` computation is compared with a `double` computation (the
  median of `medianClosestDistance` against that of `medianDistance`), the
  rounding of the one addition of the median block is made explicit:
  `medianBlockRounded`, `medianClosestDistanceFloat` and `medianDistanceDouble`
  round the sum of the two middle entries to 24 or 53 significant bits.
* Definitions whose name contains `Spec` follow the words of the spec, not the
  source; the code is compared with them.
-/

namespace pso_registration

/-- What a call of one of the metric functions does. -/
inductive Outcome where
  /-- the call returns this number -/
  | value (x : ℚ)
  /-- the `assert` aborted the program -/
  | assertFail
  /-- an index past the end of a vector was read -/
  | outOfBounds
  /-- a call of `at(i)` threw `std::out_of_range` -/
  | rangeError
  /-- a division by zero was evaluated without any guard -/
  | zeroDivide
  deriving DecidableEq

/-- The constant `std::numeric_limits<double>::max()`, that is
`(2 - 2^(-52)) * 2^1023`. -/
def DBL_MAX : ℚ := (2 ^ 53 - 1) * 2 ^ 971

/-- The result of `std::sort(v.begin(), v.end())` on a vector of numbers. -/
def sort (v : List ℚ) : List ℚ := v.insertionSort (· ≤ ·)

/-- The median block repeated in every function of the file, on an already
sorted vector `v`:
```
if (v.size() % 2 != 0) m = v[(v.size() + 1) / 2];
else m = (v[v.size() / 2] + v[(v.size() / 2) + 1]) / 2.0;
```
-/
def medianBlock (v : List ℚ) : Outcome :=
  if v.length % 2 ≠ 0 then
    match v[(v.length + 1) / 2]? with
    | some x => Outcome.value x
    | none => Outcome.outOfBounds
  else
    match v[v.length / 2]?, v[v.length / 2 + 1]? with
    | some a, some b => Outcome.value ((a + b) / 2)
    | _, _ => Outcome.outOfBounds

/-- An `Eigen::Triplet<double>`: row, column and value. -/
structure Triplet where
  row : Int
  col : Int
  value : ℚ
  deriving DecidableEq

/-- The function `medianDistance(tripletList)`: sort the triplets with the
comparator `x.value() < y.value()`, then read `.value()` at the median
positions. -/
def medianDistance (tripletList : List Triplet) : Outcome :=
  let sorted := tripletList.insertionSort (fun x y => x.value ≤ y.value)
  if sorted.length % 2 ≠ 0 then
    match sorted[(sorted.length + 1) / 2]? with
    | some t => Outcome.value t.value
    | none => Outcome.outOfBounds
  else
    match sorted[sorted.length / 2]?, sorted[sorted.length / 2 + 1]? with
    | some a, some b => Outcome.value ((a.value + b.value) / 2)
    | _, _ => Outcome.outOfBounds

/-- The function `medianClosestDistance`, on the vector `D` of nearest-neighbour
distances, in exact arithmetic.  The rounding of its `float` addition is made
explicit in `medianClosestDistanceFloat`. -/
def medianClosestDistance (D : List ℚ) : Outcome :=
  medianBlock (sort D)

/-- A floating division `x / y` of the source.  The quotient by zero has no
rational value and is reported as such. -/
def fdiv (x y : ℚ) : Outcome :=
  if y = 0 then Outcome.zeroDivide else Outcome.value (x / y)

/-- The filter loop of the two-argument `robustSumSquaredError` and of
`robustAveragedSumSquaredError`, started with the running `sum` and
`num_filtered`:
```
for (it ...) if (*it <= median_distance * 3 && *it >= median_distance / 3) {
  sum += (*it); num_filtered++; }
```
-/
def sumFiltered3 (median_distance : ℚ) : List ℚ → ℚ → Nat → ℚ × Nat
  | [], sum, num_filtered => (sum, num_filtered)
  | d :: rest, sum, num_filtered =>
    if d ≤ median_distance * 3 ∧ d ≥ median_distance / 3 then
      sumFiltered3 median_distance rest (sum + d) (num_filtered + 1)
    else
      sumFiltered3 median_distance rest sum num_filtered

/-- The filter loop of the three-argument `robustSumSquaredError`:
```
for (it ...) if (*it <= median_distance * factor && *it >= median_distance / factor) {
  sum += (*it); num_filtered++; }
```
The right operand of `&&` is evaluated only when the left one holds; when it is
evaluated with `factor` zero the loop has no rational meaning (`none`). -/
def sumFiltered (median_distance factor : ℚ) : List ℚ → ℚ → Nat → Option (ℚ × Nat)
  | [], sum, num_filtered => some (sum, num_filtered)
  | d :: rest, sum, num_filtered =>
    if d ≤ median_distance * factor then
      if factor = 0 then none
      else if d ≥ median_distance / factor then
        sumFiltered median_distance factor rest (sum + d) (num_filtered + 1)
      else
        sumFiltered median_distance factor rest sum num_filtered
    else
      sumFiltered median_distance factor rest sum num_filtered

/-- The function `robustSumSquaredError(cloud1, cloud2)`, on the vector `D` of
nearest-neighbour distances. -/
def robustSumSquaredError (D : List ℚ) : Outcome :=
  let all_distances := sort D
  match medianBlock all_distances with
  | Outcome.value median_distance =>
    let r := sumFiltered3 median_distance all_distances 0 0
    if r.2 < 10 then Outcome.value DBL_MAX else Outcome.value r.1
  | e => e

/-- The function `robustSumSquaredError(cloud1, cloud2, factor)`, on the vector
`D` of nearest-neighbour distances. -/
def robustSumSquaredErrorFactor (D : List ℚ) (factor : ℚ) : Outcome :=
  let all_distances := sort D
  match medianBlock all_distances with
  | Outcome.value median_distance =>
    match sumFiltered median_distance factor all_distances 0 0 with
    | some r => if r.2 < 10 then Outcome.value DBL_MAX else Outcome.value r.1
    | none => Outcome.zeroDivide
  | e => e

/-- The function `robustAveragedSumSquaredError`, on the vector `D` of
nearest-neighbour distances. -/
def robustAveragedSumSquaredError (D : List ℚ) : Outcome :=
  let all_distances := sort D
  match medianBlock all_distances with
  | Outcome.value median_distance =>
    let r := sumFiltered3 median_distance all_distances 0 0
    if r.2 < 10 then Outcome.value DBL_MAX else fdiv r.1 r.2
  | e => e

/-- The function `robustMedianClosestDistance`, on the vector `D` of
nearest-neighbour distances.  The second median is read from
`filtered_distances` as the loop left it, without sorting again. -/
def robustMedianClosestDistance (D : List ℚ) : Outcome :=
  let distances := sort D
  match medianBlock distances with
  | Outcome.value median_distance =>
    let filtered_distances :=
      distances.filter (fun d => decide (d ≤ median_distance * 3) && decide (d ≥ median_distance / 3))
    match medianBlock filtered_distances with
    | Outcome.value m => fdiv m filtered_distances.length
    | e => e
  | e => e

/-- The function `averageClosestDistance`, on the vector `D` of
nearest-neighbour distances: accumulate, then `avgDistance /= cloud1->size()`. -/
def averageClosestDistance (D : List ℚ) : Outcome :=
  fdiv (D.foldl (fun avgDistance d => avgDistance + d) 0) D.length

/-- The function `sumSquaredError`, on the vector `D` of nearest-neighbour
distances. -/
def sumSquaredError (D : List ℚ) : Outcome :=
  Outcome.value (D.foldl (fun sum d => sum + d) 0)

/-- A `pcl::PointXYZ`. -/
structure PointXYZ where
  x : ℚ
  y : ℚ
  z : ℚ
  deriving DecidableEq

/-- The accumulation loop of `calculateMSE`:
`for (i = 0; i < cloud1->size(); i++) mse += euclideanDistance(cloud1->at(i), cloud2->at(i));`
with `none` when an `at(i)` is out of range. -/
def calculateMSE_loop (euclideanDistance : PointXYZ → PointXYZ → ℚ)
    (cloud1 cloud2 : List PointXYZ) : Option ℚ :=
  (List.range cloud1.length).foldlM
    (fun mse i =>
      match cloud1[i]?, cloud2[i]? with
      | some p, some q => some (mse + euclideanDistance p q)
      | _, _ => none)
    0

/-- The function `calculateMSE`.  The PCL function `euclideanDistance` is a
parameter. -/
def calculateMSE (euclideanDistance : PointXYZ → PointXYZ → ℚ)
    (cloud1 cloud2 : List PointXYZ) : Outcome :=
  if cloud1.length ≠ cloud2.length then Outcome.assertFail
  else
    match calculateMSE_loop euclideanDistance cloud1 cloud2 with
    | some mse => fdiv mse cloud1.length
    | none => Outcome.rangeError

/-- The entries of `D` retained by the median-ratio filter around `m`: those
`d` with `m / factor ≤ d ≤ m * factor`, in the order of `D`. -/
def survivors (m factor : ℚ) (D : List ℚ) : List ℚ :=
  D.filter (fun d => decide (m / factor ≤ d ∧ d ≤ m * factor))

/-- The element at 1-indexed rank `r` of a sequence `s` sorted ascending. -/
def atRank (s : List ℚ) (r : Nat) : Option ℚ :=
  if r = 0 then none else s[r - 1]?

/-- Follows the words of the spec (median rule): sort ascending; for odd length
`n` the median is the element at 1-indexed rank `⌈(n+1)/2⌉`; for even `n` it is
the average of the elements at 1-indexed ranks `n/2` and `n/2+1`. -/
def specMedian (D : List ℚ) : Option ℚ :=
  let s := sort D
  let n := s.length
  if n % 2 ≠ 0 then atRank s ((n + 1 + 1) / 2)
  else
    match atRank s (n / 2), atRank s (n / 2 + 1) with
    | some a, some b => some ((a + b) / 2)
    | _, _ => none

/-- Follows the words of the spec for `robustSum(D, factor)`: with `m` the
median of `D` by the median rule, the sum of the entries `d` with
`m/factor ≤ d ≤ m*factor`; the sentinel when fewer than 10 survive. -/
def robustSumSpec (D : List ℚ) (factor : ℚ) : Option ℚ :=
  match specMedian D with
  | some m =>
    if (survivors m factor D).length < 10 then some DBL_MAX
    else some (survivors m factor D).sum
  | none => none

/-- Follows the words of the spec for `robustAverage(D, factor=3)`: the mean of
the entries surviving the median-ratio filter around the median of `D` by the
median rule; the sentinel when fewer than 10 survive. -/
def robustAverageSpec (D : List ℚ) : Option ℚ :=
  match specMedian D with
  | some m =>
    if (survivors m 3 D).length < 10 then some DBL_MAX
    else some ((survivors m 3 D).sum / (survivors m 3 D).length)
  | none => none

/-- Follows the words of the spec for `robustMedian(D, factor=3)`: the median,
by the median rule, of the entries surviving the median-ratio filter around the
median of `D` by the median rule, then divided by the count of survivors. -/
def robustMedianSpec (D : List ℚ) : Option ℚ :=
  match specMedian D with
  | some m =>
    match specMedian (survivors m 3 D) with
    | some m2 => some (m2 / (survivors m 3 D).length)
    | none => none
  | none => none

/-- The power `2 ^ k` for an integer exponent. -/
def pow2 (k : Int) : ℚ :=
  if 0 ≤ k then ((2 ^ k.toNat : Nat) : ℚ) else 1 / ((2 ^ (-k).toNat : Nat) : ℚ)

/-- The number `⌊log₂ n⌋` for `0 < n`, by halving at most `fuel` times. -/
def floorLog2 : Nat → Nat → Nat
  | 0, _ => 0
  | fuel + 1, n => if n < 2 then 0 else floorLog2 fuel (n / 2) + 1

/-- The rounding of an IEEE 754 operation in the default mode: the nearest
number with a significand of `p` bits, ties to the even significand (`p = 24`
for `float`, `p = 53` for `double`).  The exponent range is not limited, so
overflow and underflow are not represented. -/
def roundNearestEven (p : Nat) (q : ℚ) : ℚ :=
  if q = 0 then 0
  else
    let a : ℚ := if q < 0 then -q else q
    let e0 : Int := (floorLog2 a.num.natAbs a.num.natAbs : Int) - (floorLog2 a.den a.den : Int)
    let e : Int := if pow2 e0 ≤ a then e0 else e0 - 1
    let ulp : ℚ := pow2 (e - ((p : Int) - 1))
    let n : ℚ := a / ulp
    let f : Int := n.num / (n.den : Int)
    let r : Int :=
      if n - f < 1 / 2 then f
      else if 1 / 2 < n - f then f + 1
      else if f % 2 = 0 then f else f + 1
    if q < 0 then -((r : ℚ) * ulp) else (r : ℚ) * ulp

/-- The median block on a sorted vector whose entries have `p` significant
bits, with the rounding of its addition: for an even size the two middle
entries are added in the element type (`float` for `p = 24`, `double` for
`p = 53`) and the sum is divided by `2.0`, which is exact. -/
def medianBlockRounded (p : Nat) (v : List ℚ) : Outcome :=
  if v.length % 2 ≠ 0 then
    match v[(v.length + 1) / 2]? with
    | some x => Outcome.value x
    | none => Outcome.outOfBounds
  else
    match v[v.length / 2]?, v[v.length / 2 + 1]? with
    | some a, some b => Outcome.value (roundNearestEven p (a + b) / 2)
    | _, _ => Outcome.outOfBounds

/-- The function `medianClosestDistance` with the arithmetic of its
`std::vector<float> distances`: the vector `D` holds `float` values and the two
middle entries are added as `float`. -/
def medianClosestDistanceFloat (D : List ℚ) : Outcome :=
  medianBlockRounded 24 (sort D)

/-- The function `medianDistance(tripletList)` with the arithmetic of its
`double` values: the two middle values are added as `double`. -/
def medianDistanceDouble (tripletList : List Triplet) : Outcome :=
  let sorted := tripletList.insertionSort (fun x y => x.value ≤ y.value)
  if sorted.length % 2 ≠ 0 then
    match sorted[(sorted.length + 1) / 2]? with
    | some t => Outcome.value t.value
    | none => Outcome.outOfBounds
  else
    match sorted[sorted.length / 2]?, sorted[sorted.length / 2 + 1]? with
    | some a, some b => Outcome.value (roundNearestEven 53 (a.value + b.value) / 2)
    | _, _ => Outcome.outOfBounds

/-- The entries for which the body of the filter loop of the three-argument
`robustSumSquaredError` runs (those it adds to `sum` and counts), in order;
`none` as in `sumFiltered`. -/
def keepFiltered (median_distance factor : ℚ) : List ℚ → Option (List ℚ)
  | [] => some []
  | d :: rest =>
    if d ≤ median_distance * factor then
      if factor = 0 then none
      else if d ≥ median_distance / factor then
        (keepFiltered median_distance factor rest).map (fun kept => d :: kept)
      else
        keepFiltered median_distance factor rest
    else
      keepFiltered median_distance factor rest

/-- The median-ratio filter as the robust functions perform it on a distance
vector: sort, read the median, keep the entries that pass the test of the
loop.  `none` when the median block reads past the end or the test has no
rational meaning. -/
def medianRatioFilter (D : List ℚ) (factor : ℚ) : Option (List ℚ) :=
  match medianBlock (sort D) with
  | Outcome.value median_distance => keepFiltered median_distance factor (sort D)
  | _ => none

/-- The PCL function `euclideanDistance(p1, p2)`: the square root of the squared
norm of the coordinate difference.  The square root (`std::sqrt`) is a
parameter. -/
def euclideanDistance (sqrt : ℚ → ℚ) (p1 p2 : PointXYZ) : ℚ :=
  sqrt ((p2.x - p1.x) ^ 2 + (p2.y - p1.y) ^ 2 + (p2.z - p1.z) ^ 2)

/-- The 0-based positions that the median block reads in a sorted vector of `n`
elements: `(n + 1) / 2` for odd `n`, `n / 2` and `n / 2 + 1` for even `n`. -/
def medianIndices (n : Nat) : List Nat :=
  if n % 2 ≠ 0 then [(n + 1) / 2] else [n / 2, n / 2 + 1]

/-- An `Eigen::Quaternion` with coefficients `w`, `x`, `y`, `z` in `K`. -/
structure Quaterniond (K : Type) where
  w : K
  x : K
  y : K
  z : K
  deriving DecidableEq

/-- The quaternion product `a * b` of Eigen (the Hamilton product). -/
def Quaterniond.mul {K : Type} [Field K] (a b : Quaterniond K) : Quaterniond K :=
  { w := a.w * b.w - a.x * b.x - a.y * b.y - a.z * b.z
    x := a.w * b.x + a.x * b.w + a.y * b.z - a.z * b.y
    y := a.w * b.y + a.y * b.w + a.z * b.x - a.x * b.z
    z := a.w * b.z + a.z * b.w + a.x * b.y - a.y * b.x }

/-- The squared norm of a quaternion. -/
def Quaterniond.squaredNorm {K : Type} [Field K] (q : Quaterniond K) : K :=
  q.w ^ 2 + q.x ^ 2 + q.y ^ 2 + q.z ^ 2

/-- The quaternion that Eigen builds from `AngleAxisd(angle, axis)`:
`w = cos(angle / 2)` and `vec = sin(angle / 2) * axis`.  The functions `cos` and
`sin` are parameters. -/
def angleAxis {K : Type} [Field K] (cos sin : K → K) (angle : K) (axis : K × K × K) :
    Quaterniond K :=
  { w := cos (angle / 2)
    x := sin (angle / 2) * axis.1
    y := sin (angle / 2) * axis.2.1
    z := sin (angle / 2) * axis.2.2 }

/-- The vector `Eigen::Vector3d::UnitX()`. -/
def UnitX {K : Type} [Field K] : K × K × K := (1, 0, 0)

/-- The vector `Eigen::Vector3d::UnitY()`. -/
def UnitY {K : Type} [Field K] : K × K × K := (0, 1, 0)

/-- The vector `Eigen::Vector3d::UnitZ()`. -/
def UnitZ {K : Type} [Field K] : K × K × K := (0, 0, 1)

/-- The function `euler2Quaternion`: `q = yawAngle * pitchAngle * rollAngle`,
the product taken from the left as C++ does. -/
def euler2Quaternion {K : Type} [Field K] (cos sin : K → K) (roll pitch yaw : K) :
    Quaterniond K :=
  let rollAngle := angleAxis cos sin roll UnitX
  let pitchAngle := angleAxis cos sin pitch UnitY
  let yawAngle := angleAxis cos sin yaw UnitZ
  Quaterniond.mul (Quaterniond.mul yawAngle pitchAngle) rollAngle

/-! ## Lemmas on the building blocks -/

theorem sort_perm (D : List ℚ) : (sort D).Perm D :=
  List.perm_insertionSort _ D

theorem sort_sorted (D : List ℚ) : (sort D).Sorted (· ≤ ·) :=
  List.sorted_insertionSort _ D

theorem sort_length (D : List ℚ) : (sort D).length = D.length :=
  (sort_perm D).length_eq

theorem survivors_sort_perm (m factor : ℚ) (D : List ℚ) :
    (survivors m factor (sort D)).Perm (survivors m factor D) :=
  (sort_perm D).filter _

theorem survivors_sort_length (m factor : ℚ) (D : List ℚ) :
    (survivors m factor (sort D)).length = (survivors m factor D).length :=
  (survivors_sort_perm m factor D).length_eq

theorem survivors_sort_sum (m factor : ℚ) (D : List ℚ) :
    (survivors m factor (sort D)).sum = (survivors m factor D).sum :=
  (survivors_sort_perm m factor D).sum_eq

/-- Sorting commutes with the median-ratio filter. -/
theorem sort_survivors (m factor : ℚ) (D : List ℚ) :
    sort (survivors m factor D) = survivors m factor (sort D) := by
  apply List.eq_of_perm_of_sorted (r := (· ≤ ·))
  · exact (sort_perm _).trans (survivors_sort_perm m factor D).symm
  · exact sort_sorted _
  · exact (sort_sorted D).filter _

theorem survivors_length_le (m factor : ℚ) (D : List ℚ) :
    (survivors m factor D).length ≤ D.length :=
  List.length_filter_le _ D

/-- The constant-3 loop adds up and counts exactly the survivors. -/
theorem sumFiltered3_eq (m : ℚ) (l : List ℚ) (s : ℚ) (k : Nat) :
    sumFiltered3 m l s k
      = (s + (survivors m 3 l).sum, k + (survivors m 3 l).length) := by
  induction l generalizing s k with
  | nil => simp [sumFiltered3, survivors]
  | cons d rest ih =>
    unfold sumFiltered3
    by_cases h : d ≤ m * 3 ∧ d ≥ m / 3
    · have h2 : m / 3 ≤ d ∧ d ≤ m * 3 := ⟨h.2, h.1⟩
      rw [if_pos h, ih]
      simp [survivors, List.filter_cons, h2, add_assoc, Nat.add_assoc, Nat.add_comm 1]
    · have h2 : ¬ (m / 3 ≤ d ∧ d ≤ m * 3) := fun h3 => h ⟨h3.2, h3.1⟩
      rw [if_neg h, ih]
      simp [survivors, List.filter_cons, h2]

/-- For a non-zero factor the loop with a factor adds up and counts exactly the
survivors. -/
theorem sumFiltered_eq (m factor : ℚ) (hf : factor ≠ 0) (l : List ℚ) (s : ℚ) (k : Nat) :
    sumFiltered m factor l s k
      = some (s + (survivors m factor l).sum, k + (survivors m factor l).length) := by
  induction l generalizing s k with
  | nil => simp [sumFiltered, survivors]
  | cons d rest ih =>
    unfold sumFiltered
    by_cases h1 : d ≤ m * factor
    · rw [if_pos h1, if_neg hf]
      by_cases h2 : d ≥ m / factor
      · have h3 : m / factor ≤ d ∧ d ≤ m * factor := ⟨h2, h1⟩
        rw [if_pos h2, ih]
        simp [survivors, List.filter_cons, h3, add_assoc, Nat.add_assoc, Nat.add_comm 1]
      · have h3 : ¬ (m / factor ≤ d ∧ d ≤ m * factor) := fun h => h2 h.1
        rw [if_neg h2, ih]
        simp [survivors, List.filter_cons, h3]
    · have h3 : ¬ (m / factor ≤ d ∧ d ≤ m * factor) := fun h => h1 h.2
      rw [if_neg h1, ih]
      simp [survivors, List.filter_cons, h3]

/-- The median block reads in bounds exactly from length 3 on; this is its
value there for an odd length. -/
theorem medianBlock_odd (v : List ℚ) (hodd : v.length % 2 = 1) (h3 : 3 ≤ v.length) :
    ∃ x, v[(v.length + 1) / 2]? = some x ∧ medianBlock v = Outcome.value x := by
  have hlt : (v.length + 1) / 2 < v.length := by omega
  refine ⟨v[(v.length + 1) / 2], List.getElem?_eq_getElem hlt, ?_⟩
  unfold medianBlock
  rw [if_pos (by omega), List.getElem?_eq_getElem hlt]

theorem medianBlock_even (v : List ℚ) (heven : v.length % 2 = 0) (h3 : 3 ≤ v.length) :
    ∃ a b, v[v.length / 2]? = some a ∧ v[v.length / 2 + 1]? = some b ∧
      medianBlock v = Outcome.value ((a + b) / 2) := by
  have hlt1 : v.length / 2 < v.length := by omega
  have hlt2 : v.length / 2 + 1 < v.length := by omega
  refine ⟨v[v.length / 2], v[v.length / 2 + 1], List.getElem?_eq_getElem hlt1,
    List.getElem?_eq_getElem hlt2, ?_⟩
  unfold medianBlock
  rw [if_neg (by omega), List.getElem?_eq_getElem hlt1, List.getElem?_eq_getElem hlt2]

/-- From length 3 on the median block returns a number. -/
theorem medianBlock_value_of_three_le (v : List ℚ) (h3 : 3 ≤ v.length) :
    ∃ m, medianBlock v = Outcome.value m := by
  rcases Nat.mod_two_eq_zero_or_one v.length with h | h
  · obtain ⟨a, b, _, _, hm⟩ := medianBlock_even v h h3
    exact ⟨_, hm⟩
  · obtain ⟨x, _, hm⟩ := medianBlock_odd v h h3
    exact ⟨_, hm⟩

/-- Below length 3 the median block reads past the end. -/
theorem medianBlock_short (v : List ℚ) (h : v.length < 3) :
    medianBlock v = Outcome.outOfBounds := by
  match v, h with
  | [], _ => simp [medianBlock]
  | [_], _ => simp [medianBlock]
  | [_, _], _ => simp [medianBlock]
  | _ :: _ :: _ :: _, h => simp at h; omega

/-- The median block never aborts, throws or divides by zero. -/
theorem medianBlock_cases (v : List ℚ) :
    (∃ m, medianBlock v = Outcome.value m) ∨ medianBlock v = Outcome.outOfBounds := by
  by_cases h : 3 ≤ v.length
  · exact Or.inl (medianBlock_value_of_three_le v h)
  · exact Or.inr (medianBlock_short v (by omega))

/-- The two robust sums and the robust average, once the median `m` of `D` has
been read: the count and the sum are those of the survivors of `D`. -/
theorem robust_unfold (D : List ℚ) (m : ℚ) (hm : medianClosestDistance D = Outcome.value m) :
    robustSumSquaredError D
        = (if (survivors m 3 D).length < 10 then Outcome.value DBL_MAX
           else Outcome.value (survivors m 3 D).sum) ∧
    robustAveragedSumSquaredError D
        = (if (survivors m 3 D).length < 10 then Outcome.value DBL_MAX
           else fdiv (survivors m 3 D).sum (survivors m 3 D).length) := by
  unfold medianClosestDistance at hm
  constructor
  · simp only [robustSumSquaredError, hm, sumFiltered3_eq, zero_add, Nat.zero_add,
      survivors_sort_length, survivors_sort_sum]
  · simp only [robustAveragedSumSquaredError, hm, sumFiltered3_eq, zero_add, Nat.zero_add,
      survivors_sort_length, survivors_sort_sum]

theorem robustFactor_unfold (D : List ℚ) (factor m : ℚ) (hf : factor ≠ 0)
    (hm : medianClosestDistance D = Outcome.value m) :
    robustSumSquaredErrorFactor D factor
        = (if (survivors m factor D).length < 10 then Outcome.value DBL_MAX
           else Outcome.value (survivors m factor D).sum) := by
  unfold medianClosestDistance at hm
  simp only [robustSumSquaredErrorFactor, hm, sumFiltered_eq m factor hf, zero_add,
    Nat.zero_add, survivors_sort_length, survivors_sort_sum]

/-- Where the median is read in bounds (from three distances on), fewer than ten
survivors give the sentinel in both robust functions. -/
theorem robust_sentinel_of_few_survivors (D : List ℚ) (m : ℚ)
    (hm : medianClosestDistance D = Outcome.value m)
    (hfew : (survivors m 3 D).length < 10) :
    robustSumSquaredError D = Outcome.value DBL_MAX ∧
    robustAveragedSumSquaredError D = Outcome.value DBL_MAX := by
  obtain ⟨h1, h2⟩ := robust_unfold D m hm
  rw [h1, h2, if_pos hfew, if_pos hfew]
  exact ⟨rfl, rfl⟩

/-- For three to nine distances both robust functions return the sentinel. -/
theorem robust_sentinel_of_three_to_nine (D : List ℚ) (h3 : 3 ≤ D.length)
    (h10 : D.length < 10) :
    robustSumSquaredError D = Outcome.value DBL_MAX ∧
    robustAveragedSumSquaredError D = Outcome.value DBL_MAX := by
  obtain ⟨m, hm⟩ := medianBlock_value_of_three_le (sort D) (by rw [sort_length]; exact h3)
  exact robust_sentinel_of_few_survivors D m hm
    (lt_of_le_of_lt (survivors_length_le m 3 D) h10)

/-- With fewer than three distances both robust functions read past the end of
the sorted vector before they reach the sentinel test. -/
theorem robust_short (D : List ℚ) (h : D.length < 3) :
    robustSumSquaredError D = Outcome.outOfBounds ∧
    robustAveragedSumSquaredError D = Outcome.outOfBounds := by
  have hm : medianBlock (sort D) = Outcome.outOfBounds :=
    medianBlock_short _ (by rw [sort_length]; exact h)
  simp [robustSumSquaredError, robustAveragedSumSquaredError, hm]

/-- The summing loop and the collecting loop select the same entries. -/
theorem sumFiltered_eq_keepFiltered (m factor : ℚ) (l : List ℚ) (s : ℚ) (k : Nat) :
    sumFiltered m factor l s k
      = (keepFiltered m factor l).map (fun kept => (s + kept.sum, k + kept.length)) := by
  induction l generalizing s k with
  | nil => simp [sumFiltered, keepFiltered]
  | cons d rest ih =>
    unfold sumFiltered keepFiltered
    by_cases h1 : d ≤ m * factor
    · rw [if_pos h1, if_pos h1]
      by_cases hf : factor = 0
      · rw [if_pos hf, if_pos hf]; rfl
      · rw [if_neg hf, if_neg hf]
        by_cases h2 : d ≥ m / factor
        · rw [if_pos h2, if_pos h2, ih]
          cases keepFiltered m factor rest with
          | none => rfl
          | some kept =>
            simp [add_assoc, Nat.add_assoc, Nat.add_comm 1]
        · rw [if_neg h2, if_neg h2, ih]
    · rw [if_neg h1, if_neg h1, ih]

/-- For a non-zero factor the collecting loop keeps exactly the survivors. -/
theorem keepFiltered_eq (m factor : ℚ) (hf : factor ≠ 0) (l : List ℚ) :
    keepFiltered m factor l = some (survivors m factor l) := by
  induction l with
  | nil => simp [keepFiltered, survivors]
  | cons d rest ih =>
    unfold keepFiltered
    by_cases h1 : d ≤ m * factor
    · rw [if_pos h1, if_neg hf]
      by_cases h2 : d ≥ m / factor
      · have h3 : m / factor ≤ d ∧ d ≤ m * factor := ⟨h2, h1⟩
        rw [if_pos h2, ih]
        simp [survivors, List.filter_cons, h3]
      · have h3 : ¬ (m / factor ≤ d ∧ d ≤ m * factor) := fun h => h2 h.1
        rw [if_neg h2, ih]
        simp [survivors, List.filter_cons, h3]
    · have h3 : ¬ (m / factor ≤ d ∧ d ≤ m * factor) := fun h => h1 h.2
      rw [if_neg h1, ih]
      simp [survivors, List.filter_cons, h3]

/-- The three-argument robust sum is the sum over `medianRatioFilter`. -/
theorem robustSumSquaredErrorFactor_eq_filter (D : List ℚ) (factor m : ℚ)
    (hm : medianClosestDistance D = Outcome.value m) :
    robustSumSquaredErrorFactor D factor
      = match medianRatioFilter D factor with
        | some kept => if kept.length < 10 then Outcome.value DBL_MAX else Outcome.value kept.sum
        | none => Outcome.zeroDivide := by
  unfold medianClosestDistance at hm
  simp only [robustSumSquaredErrorFactor, medianRatioFilter, hm, sumFiltered_eq_keepFiltered]
  cases keepFiltered m factor (sort D) with
  | none => rfl
  | some kept => simp

/-- The accumulation loop of `calculateMSE` over the first `n` indices. -/
theorem calculateMSE_loop_upto (dist : PointXYZ → PointXYZ → ℚ)
    (cloud1 cloud2 : List PointXYZ) (hlen : cloud1.length = cloud2.length) (n : Nat)
    (hn : n ≤ cloud1.length) :
    (List.range n).foldlM
      (fun mse i =>
        match cloud1[i]?, cloud2[i]? with
        | some p, some q => some (mse + dist p q)
        | _, _ => none)
      (0 : ℚ)
      = some ((List.zipWith dist cloud1 cloud2).take n).sum := by
  induction n with
  | zero => simp
  | succ n ih =>
    have h1 : n < cloud1.length := hn
    have h2 : n < cloud2.length := hlen ▸ h1
    have hz : n < (List.zipWith dist cloud1 cloud2).length := by
      simp [List.length_zipWith, h1, h2]
    rw [List.range_succ, List.foldlM_append, ih (Nat.le_of_lt h1)]
    simp [List.getElem?_eq_getElem h1, List.getElem?_eq_getElem h2,
      List.sum_take_succ _ n hz]

theorem calculateMSE_loop_eq (dist : PointXYZ → PointXYZ → ℚ)
    (cloud1 cloud2 : List PointXYZ) (hlen : cloud1.length = cloud2.length) :
    calculateMSE_loop dist cloud1 cloud2 = some (List.zipWith dist cloud1 cloud2).sum := by
  unfold calculateMSE_loop
  rw [calculateMSE_loop_upto dist cloud1 cloud2 hlen cloud1.length (Nat.le_refl _)]
  have : (List.zipWith dist cloud1 cloud2).length ≤ cloud1.length := by
    simp [List.length_zipWith]
  rw [List.take_of_length_le this]

theorem fdiv_ne_assertFail (x y : ℚ) : fdiv x y ≠ Outcome.assertFail := by
  unfold fdiv
  split <;> simp

/-! ## The claims -/

/-- C1 (evaluation of the code): for the odd-length sequence `[1,2,3,4,5]` the
element at 1-indexed rank `⌈(5+1)/2⌉ = 3` of the sorted sequence is `3`, but
`medianClosestDistance` and `medianDistance` return `4`: they read the 0-based
index `(n+1)/2`, one rank further.  For a single distance that index is past
the end. -/
theorem C1_median_odd_reads_one_rank_further :
    (sort [1, 2, 3, 4, 5])[(5 + 1) / 2 - 1]? = some 3 ∧
    medianClosestDistance [1, 2, 3, 4, 5] = Outcome.value 4 ∧
    medianDistance [⟨0, 0, 1⟩, ⟨0, 1, 2⟩, ⟨0, 2, 3⟩, ⟨1, 0, 4⟩, ⟨1, 1, 5⟩] = Outcome.value 4 ∧
    medianClosestDistance [7] = Outcome.outOfBounds ∧
    medianDistance [⟨0, 0, 7⟩] = Outcome.outOfBounds := by
  decide

/-- C2 (evaluation of the code): for the even-length sequence `[1,2,3,4]` the
elements at 1-indexed ranks `n/2 = 2` and `n/2+1 = 3` of the sorted sequence are
`2` and `3` (average `2.5`), but `medianClosestDistance` and `medianDistance`
return `(3+4)/2 = 3.5`: they read the 0-based indices `n/2` and `n/2+1`.  For
two distances the second index is past the end. -/
theorem C2_median_even_reads_one_rank_further :
    (sort [1, 2, 3, 4])[4 / 2 - 1]? = some 2 ∧
    (sort [1, 2, 3, 4])[4 / 2 + 1 - 1]? = some 3 ∧
    medianClosestDistance [1, 2, 3, 4] = Outcome.value (7 / 2) ∧
    medianDistance [⟨0, 0, 1⟩, ⟨0, 1, 2⟩, ⟨1, 0, 3⟩, ⟨1, 1, 4⟩] = Outcome.value (7 / 2) ∧
    medianClosestDistance [1, 2] = Outcome.outOfBounds ∧
    medianDistance [⟨0, 0, 1⟩, ⟨0, 1, 2⟩] = Outcome.outOfBounds := by
  decide!

/-- C3 (evaluation of the code): for a single distance, for two and for none,
`robustSumSquaredError` and `robustAveragedSumSquaredError` do not return the
sentinel: the median block reads past the end of the sorted vector before the
test `num_filtered < 10` is reached. -/
theorem C3_robust_short_input_reads_past_end :
    robustSumSquaredError [1] = Outcome.outOfBounds ∧
    robustAveragedSumSquaredError [1] = Outcome.outOfBounds ∧
    robustSumSquaredError [1, 2] = Outcome.outOfBounds ∧
    robustAveragedSumSquaredError [1, 2] = Outcome.outOfBounds ∧
    robustSumSquaredError [] = Outcome.outOfBounds ∧
    robustAveragedSumSquaredError [] = Outcome.outOfBounds := by
  decide

/-- C4 (evaluation of the code): for the twelve distances
`[2,1,5,1,2,1,2,1,2,1,2,1]` and factor 3 the median by the median rule is `3/2`
and the entries `d` with `m/factor ≤ d ≤ m*factor` are the eleven entries other
than 5, of sum 16; `robustSumSquaredError(D, 3)` reads 2 as its median, lets the
entry 5 contribute and returns 21. -/
theorem C4_robustSum_adds_entry_outside_interval :
    specMedian [2, 1, 5, 1, 2, 1, 2, 1, 2, 1, 2, 1] = some (3 / 2) ∧
    survivors (3 / 2) 3 [2, 1, 5, 1, 2, 1, 2, 1, 2, 1, 2, 1]
      = [2, 1, 1, 2, 1, 2, 1, 2, 1, 2, 1] ∧
    robustSumSpec [2, 1, 5, 1, 2, 1, 2, 1, 2, 1, 2, 1] 3 = some 16 ∧
    medianClosestDistance [2, 1, 5, 1, 2, 1, 2, 1, 2, 1, 2, 1] = Outcome.value 2 ∧
    robustSumSquaredErrorFactor [2, 1, 5, 1, 2, 1, 2, 1, 2, 1, 2, 1] 3 = Outcome.value 21 := by
  decide!

/-- C5 (evaluation of the code): for the twelve distances
`[2,1,5,1,2,1,2,1,2,1,2,1]` the mean of the entries surviving the median-ratio
filter with factor 3 (median `3/2`, eleven survivors of sum 16) is `16/11`;
`robustAveragedSumSquaredError` reads 2 as its median, keeps all twelve entries
and returns `21/12 = 7/4`, which is neither that mean nor the robust sum 21
divided by the eleven survivors. -/
theorem C5_robustAverage_differs_from_mean_of_survivors :
    robustAverageSpec [2, 1, 5, 1, 2, 1, 2, 1, 2, 1, 2, 1] = some (16 / 11) ∧
    (survivors (3 / 2) 3 [2, 1, 5, 1, 2, 1, 2, 1, 2, 1, 2, 1]).length = 11 ∧
    robustSumSquaredError [2, 1, 5, 1, 2, 1, 2, 1, 2, 1, 2, 1] = Outcome.value 21 ∧
    robustAveragedSumSquaredError [2, 1, 5, 1, 2, 1, 2, 1, 2, 1, 2, 1]
      = Outcome.value (7 / 4) := by
  decide!

/-- C6 (evaluation of the code): for `[3,1,5,2,4]` the median by the median
rule is 3, all five entries survive, their median is 3 and the robust median of
the spec is `3/5`; `robustMedianClosestDistance` reads 4, keeps `[2,3,4,5]`,
reads `(4+5)/2` and returns `9/8`.  For `[100,0,10000,0,1]` the spec gives
`1/1`; the code keeps only `[100]` and reads past its end. -/
theorem C6_robustMedian_differs_from_median_of_survivors :
    robustMedianSpec [3, 1, 5, 2, 4] = some (3 / 5) ∧
    robustMedianClosestDistance [3, 1, 5, 2, 4] = Outcome.value (9 / 8) ∧
    robustMedianSpec [100, 0, 10000, 0, 1] = some 1 ∧
    medianRatioFilter [100, 0, 10000, 0, 1] 3 = some [100] ∧
    robustMedianClosestDistance [100, 0, 10000, 0, 1] = Outcome.outOfBounds := by
  decide!

/-- C7: for every non-empty distance sequence `D` of length `n`,
`sumSquaredError(D)` returns a number `s` and `averageClosestDistance(D)`
returns `s / n`. -/
theorem C7_sum_over_length_is_average (D : List ℚ) (hne : D ≠ []) :
    ∃ s, sumSquaredError D = Outcome.value s ∧
      averageClosestDistance D = Outcome.value (s / D.length) := by
  refine ⟨D.foldl (fun sum d => sum + d) 0, rfl, ?_⟩
  have hlen : (D.length : ℚ) ≠ 0 := by
    have : 0 < D.length := List.length_pos.mpr hne
    exact_mod_cast this.ne'
  simp [averageClosestDistance, fdiv, hlen]

/-- Witness of C7: the sequence `[1, 2]`. -/
theorem C7_sum_over_length_is_average_witness :
    ∃ s, sumSquaredError [1, 2] = Outcome.value s ∧
      averageClosestDistance [1, 2] = Outcome.value (s / ([1, 2] : List ℚ).length) :=
  C7_sum_over_length_is_average [1, 2] (by simp)

/-- C8 as stated fails: with factor 3 the filter keeps `[1,3,9,9,9]` of
`[0,0,0,0,1,3,9,9,9]` (median read: 3), and filtering `[1,3,9,9,9]` again
(median read: 9) keeps only `[3,9,9,9]`. -/
theorem C8_filter_twice_differs :
    medianRatioFilter [0, 0, 0, 0, 1, 3, 9, 9, 9] 3 = some [1, 3, 9, 9, 9] ∧
    medianRatioFilter [1, 3, 9, 9, 9] 3 = some [3, 9, 9, 9] ∧
    ¬ (∀ (D : List ℚ) (factor : ℚ) (F : List ℚ),
        medianRatioFilter D factor = some F → medianRatioFilter F factor = some F) := by
  have h1 : medianRatioFilter [0, 0, 0, 0, 1, 3, 9, 9, 9] 3 = some [1, 3, 9, 9, 9] := by
    decide!
  have h2 : medianRatioFilter [1, 3, 9, 9, 9] 3 = some [3, 9, 9, 9] := by
    decide!
  refine ⟨h1, h2, fun h => ?_⟩
  have h3 := h _ _ _ h1
  rw [h2] at h3
  exact absurd h3 (by decide)

/-- C8 amended: for every distance sequence `D` and non-zero factor, with `F`
the filtered sequence and `m` the median read from `D`: the filter loop run on
`F` with the same `m` keeps all of `F`; filtering `F` again with its own median
keeps a subsequence of `F`; and it keeps all of `F` whenever the median read
from `F` equals `m`. -/
theorem C8_filter_idempotent_for_same_median (D : List ℚ) (factor : ℚ) (F : List ℚ) (m : ℚ)
    (hf : factor ≠ 0) (hm : medianClosestDistance D = Outcome.value m)
    (hF : medianRatioFilter D factor = some F) :
    keepFiltered m factor F = some F ∧
    (∀ F2, medianRatioFilter F factor = some F2 → F2.Sublist F) ∧
    (medianClosestDistance F = Outcome.value m → medianRatioFilter F factor = some F) := by
  unfold medianClosestDistance at hm
  have hFeq : F = survivors m factor (sort D) := by
    simp only [medianRatioFilter, hm, keepFiltered_eq m factor hf, Option.some.injEq] at hF
    exact hF.symm
  have hsorted : F.Sorted (· ≤ ·) := by
    rw [hFeq]; exact (sort_sorted D).filter _
  have hsortF : sort F = F := List.Sorted.insertionSort_eq hsorted
  have hkeep : survivors m factor F = F := by
    rw [hFeq]; unfold survivors; rw [List.filter_filter]; simp
  refine ⟨by rw [keepFiltered_eq m factor hf, hkeep], ?_, ?_⟩
  · intro F2 hF2
    unfold medianRatioFilter at hF2
    rw [hsortF] at hF2
    rcases medianBlock_cases F with ⟨m2, hm2⟩ | hm2
    · simp only [hm2, keepFiltered_eq m2 factor hf, Option.some.injEq] at hF2
      rw [← hF2]
      exact List.filter_sublist F
    · simp [hm2] at hF2
  · intro hmF
    unfold medianClosestDistance at hmF
    unfold medianRatioFilter
    rw [hmF]
    simp only [keepFiltered_eq m factor hf, hsortF, hkeep]

/-- Witness of C8 amended: `[1,3,9,9,9]` with factor 3; the median read is 9
before and after the filter, which keeps `[3,9,9,9]`, and filtering again keeps
`[3,9,9,9]`. -/
theorem C8_filter_idempotent_for_same_median_witness :
    medianRatioFilter [1, 3, 9, 9, 9] 3 = some [3, 9, 9, 9] ∧
    keepFiltered 9 3 [3, 9, 9, 9] = some [3, 9, 9, 9] ∧
    medianRatioFilter [3, 9, 9, 9] 3 = some [3, 9, 9, 9] :=
  ⟨by decide!,
   (C8_filter_idempotent_for_same_median [1, 3, 9, 9, 9] 3 [3, 9, 9, 9] 9
     (by norm_num) (by decide) (by decide!)).1,
   (C8_filter_idempotent_for_same_median [1, 3, 9, 9, 9] 3 [3, 9, 9, 9] 9
     (by norm_num) (by decide) (by decide!)).2.2 (by decide!)⟩

/-- C9: for all clouds `A` and `B` (and any point distance), `calculateMSE(A, B)`
fails its assertion if and only if the sizes differ; when the sizes agree every
index pair contributes: the result is the sum of the distances of all pairs
`A[i], B[i]` divided by the common size. -/
theorem C9_calculateMSE_fails_iff_sizes_differ (euclideanDistance : PointXYZ → PointXYZ → ℚ)
    (A B : List PointXYZ) :
    (calculateMSE euclideanDistance A B = Outcome.assertFail ↔ A.length ≠ B.length) ∧
    (A.length = B.length →
      calculateMSE euclideanDistance A B
        = fdiv (List.zipWith euclideanDistance A B).sum A.length) := by
  constructor
  · constructor
    · intro h
      by_contra hlen
      simp only [calculateMSE, hlen, ne_eq, not_true_eq_false, if_false,
        calculateMSE_loop_eq euclideanDistance A B hlen] at h
      exact fdiv_ne_assertFail _ _ h
    · intro hlen
      simp [calculateMSE, hlen]
  · intro hlen
    simp only [calculateMSE, hlen, ne_eq, not_true_eq_false, if_false,
      calculateMSE_loop_eq euclideanDistance A B hlen]

/-- Witness of C9: a cloud of 3 points against a cloud of 2 points fails the
assertion; against itself it returns the sum over all three pairs, divided
by 3. -/
theorem C9_calculateMSE_fails_iff_sizes_differ_witness :
    calculateMSE (fun (p q : PointXYZ) => |p.x - q.x| + |p.y - q.y| + |p.z - q.z|)
        [⟨0, 0, 0⟩, ⟨1, 0, 0⟩, ⟨2, 0, 0⟩] [⟨0, 0, 0⟩, ⟨1, 0, 0⟩] = Outcome.assertFail ∧
    calculateMSE (fun (p q : PointXYZ) => |p.x - q.x| + |p.y - q.y| + |p.z - q.z|)
        [⟨0, 0, 0⟩, ⟨1, 0, 0⟩, ⟨2, 0, 0⟩] [⟨0, 0, 0⟩, ⟨1, 0, 0⟩, ⟨2, 0, 0⟩]
      = fdiv (List.zipWith (fun (p q : PointXYZ) => |p.x - q.x| + |p.y - q.y| + |p.z - q.z|)
          [⟨0, 0, 0⟩, ⟨1, 0, 0⟩, ⟨2, 0, 0⟩] [⟨0, 0, 0⟩, ⟨1, 0, 0⟩, ⟨2, 0, 0⟩]).sum
          ([⟨0, 0, 0⟩, ⟨1, 0, 0⟩, ⟨2, 0, 0⟩] : List PointXYZ).length :=
  ⟨(C9_calculateMSE_fails_iff_sizes_differ _ _ _).1.2 (by decide),
   (C9_calculateMSE_fails_iff_sizes_differ _ _ _).2 rfl⟩

/-- C10 as stated fails: for the empty distance sequence
`averageClosestDistance` neither fails with an error nor returns a number. -/
theorem C10_average_empty_not_defined :
    ¬ (averageClosestDistance [] = Outcome.assertFail ∨
       averageClosestDistance [] = Outcome.rangeError ∨
       ∃ x, averageClosestDistance [] = Outcome.value x) := by
  have h : averageClosestDistance [] = Outcome.zeroDivide := by decide
  rw [h]
  simp

/-- C10 amended: `averageClosestDistance` has no guard for the empty sequence:
there it evaluates the division of the zero sum by the zero length; for every
other `D` it returns the sum of `D` divided by its length. -/
theorem C10_average_unguarded_division (D : List ℚ) :
    averageClosestDistance D
      = if D = [] then Outcome.zeroDivide else Outcome.value (D.sum / D.length) := by
  by_cases h : D = []
  · subst h
    simp [averageClosestDistance, fdiv]
  · have hlen : (D.length : ℚ) ≠ 0 := by
      have : 0 < D.length := List.length_pos.mpr h
      exact_mod_cast this.ne'
    rw [if_neg h]
    simp [averageClosestDistance, fdiv, hlen, List.sum_eq_foldl]

/-! ## Further lemmas -/

/-- A point is at distance zero from itself, for any square root with
`sqrt 0 = 0`. -/
theorem euclideanDistance_self (sqrt : ℚ → ℚ) (h0 : sqrt 0 = 0) (p : PointXYZ) :
    euclideanDistance sqrt p p = 0 := by
  simp [euclideanDistance, h0]

/-- The sorted vector depends only on the entries, not on their order. -/
theorem sort_eq_of_perm (D1 D2 : List ℚ) (h : D1.Perm D2) : sort D1 = sort D2 := by
  apply List.eq_of_perm_of_sorted (r := (· ≤ ·))
  · exact (sort_perm D1).trans (h.trans (sort_perm D2).symm)
  · exact sort_sorted D1
  · exact sort_sorted D2

/-- Sorting triplets by value and reading the values gives the sorted values. -/
theorem map_value_sort_triplets (T : List Triplet) :
    (T.insertionSort (fun x y => x.value ≤ y.value)).map Triplet.value
      = sort (T.map Triplet.value) :=
  List.map_insertionSort (fun (x y : Triplet) => x.value ≤ y.value) (· ≤ ·) Triplet.value T
    (fun _ _ _ _ => Iff.rfl)

/-- Whatever order `std::sort` leaves among triplets of equal value, the
sequence of values of the sorted triplets is the sorted sequence of values. -/
theorem values_of_sorted_triplets (T S : List Triplet) (hp : S.Perm T)
    (hs : S.Sorted (fun x y => x.value ≤ y.value)) :
    S.map Triplet.value = sort (T.map Triplet.value) := by
  apply List.eq_of_perm_of_sorted (r := (· ≤ ·))
  · exact (hp.map _).trans (sort_perm _).symm
  · exact List.pairwise_map.mpr hs
  · exact sort_sorted _

/-- The median block on the values of a list of triplets reads the triplets at
the same positions. -/
theorem medianBlock_map_value (S : List Triplet) :
    medianBlock (S.map Triplet.value)
      = if S.length % 2 ≠ 0 then
          match S[(S.length + 1) / 2]? with
          | some t => Outcome.value t.value
          | none => Outcome.outOfBounds
        else
          match S[S.length / 2]?, S[S.length / 2 + 1]? with
          | some a, some b => Outcome.value ((a.value + b.value) / 2)
          | _, _ => Outcome.outOfBounds := by
  unfold medianBlock
  simp only [List.length_map, List.getElem?_map]
  split
  · cases S[(S.length + 1) / 2]? <;> rfl
  · cases S[S.length / 2]? <;> cases S[S.length / 2 + 1]? <;> rfl

/-- The positions of `medianIndices` are in bounds exactly from length 3 on. -/
theorem medianIndices_lt_iff (n : Nat) : (∀ i ∈ medianIndices n, i < n) ↔ 3 ≤ n := by
  unfold medianIndices
  split <;> simp <;> omega

/-- The squared norm of the result of `euler2Quaternion`, for any `cos` and
`sin` with `cos a ^ 2 + sin a ^ 2 = 1`. -/
theorem euler2Quaternion_squaredNorm {K : Type} [Field K] (cos sin : K → K)
    (h : ∀ a, cos a ^ 2 + sin a ^ 2 = 1) (roll pitch yaw : K) :
    (euler2Quaternion cos sin roll pitch yaw).squaredNorm = 1 := by
  have h1 := h (roll / 2)
  have h2 := h (pitch / 2)
  have h3 := h (yaw / 2)
  simp only [euler2Quaternion, angleAxis, UnitX, UnitY, UnitZ, Quaterniond.mul,
    Quaterniond.squaredNorm]
  linear_combination
    ((cos (pitch / 2) ^ 2 + sin (pitch / 2) ^ 2) * (cos (yaw / 2) ^ 2 + sin (yaw / 2) ^ 2)) * h1
      + (cos (yaw / 2) ^ 2 + sin (yaw / 2) ^ 2) * h2 + h3

/-! ## The claims, continued -/

/-- C11: for every non-empty cloud `A`, `calculateMSE(A, A)` returns 0 (the
Euclidean distance of PCL, with any square root that maps 0 to 0). -/
theorem C11_calculateMSE_self_is_zero (sqrt : ℚ → ℚ) (h0 : sqrt 0 = 0) (A : List PointXYZ)
    (hne : A ≠ []) :
    calculateMSE (euclideanDistance sqrt) A A = Outcome.value 0 := by
  have hlen : (A.length : ℚ) ≠ 0 := by
    have : 0 < A.length := List.length_pos.mpr hne
    exact_mod_cast this.ne'
  have hsum : (List.zipWith (euclideanDistance sqrt) A A).sum = 0 := by
    rw [List.zipWith_same]
    apply List.sum_eq_zero
    intro x hx
    obtain ⟨p, _, hp⟩ := List.mem_map.mp hx
    rw [← hp]
    exact euclideanDistance_self sqrt h0 p
  simp only [calculateMSE, ne_eq, not_true_eq_false, if_false,
    calculateMSE_loop_eq (euclideanDistance sqrt) A A rfl, hsum]
  simp [fdiv, hlen]

/-- Witness of C11: the cloud `[(0,0,0), (1,0,0), (2,0,0)]`, with the square
root of a fraction taken on numerator and denominator. -/
theorem C11_calculateMSE_self_is_zero_witness :
    calculateMSE
        (euclideanDistance (fun q => (Nat.sqrt q.num.toNat : ℚ) / (Nat.sqrt q.den : ℚ)))
        [⟨0, 0, 0⟩, ⟨1, 0, 0⟩, ⟨2, 0, 0⟩] [⟨0, 0, 0⟩, ⟨1, 0, 0⟩, ⟨2, 0, 0⟩]
      = Outcome.value 0 :=
  C11_calculateMSE_self_is_zero
    (fun q => (Nat.sqrt q.num.toNat : ℚ) / (Nat.sqrt q.den : ℚ)) (by simp)
    [⟨0, 0, 0⟩, ⟨1, 0, 0⟩, ⟨2, 0, 0⟩] (by simp)

/-- C12: for all real `roll`, `pitch`, `yaw` the quaternion returned by
`euler2Quaternion` has unit norm: `w^2 + x^2 + y^2 + z^2 = 1`. -/
theorem C12_euler2Quaternion_unit_norm (roll pitch yaw : ℝ) :
    (euler2Quaternion Real.cos Real.sin roll pitch yaw).w ^ 2
      + (euler2Quaternion Real.cos Real.sin roll pitch yaw).x ^ 2
      + (euler2Quaternion Real.cos Real.sin roll pitch yaw).y ^ 2
      + (euler2Quaternion Real.cos Real.sin roll pitch yaw).z ^ 2 = 1 :=
  euler2Quaternion_squaredNorm Real.cos Real.sin Real.cos_sq_add_sin_sq roll pitch yaw

/-- C13: `euler2Quaternion(0, 0, 0)` is the identity rotation
`(w, x, y, z) = (1, 0, 0, 0)`. -/
theorem C13_euler2Quaternion_zero_is_identity :
    euler2Quaternion Real.cos Real.sin 0 0 0 = ⟨1, 0, 0, 0⟩ := by
  simp [euler2Quaternion, angleAxis, UnitX, UnitY, UnitZ, Quaterniond.mul]

/-- C14: for all real `roll`, `pitch`, `yaw`, `euler2Quaternion` returns the
Hamilton product `q_yaw * q_pitch * q_roll` of the rotations about Z, Y and X,
and its coefficients are, with `c`/`s` the cosine/sine of the half angles,
`w = cr*cp*cy + sr*sp*sy`, `x = sr*cp*cy - cr*sp*sy`, `y = cr*sp*cy + sr*cp*sy`,
`z = cr*cp*sy - sr*sp*cy`. -/
theorem C14_euler2Quaternion_is_yaw_pitch_roll (roll pitch yaw : ℝ) :
    euler2Quaternion Real.cos Real.sin roll pitch yaw
      = Quaterniond.mul ⟨Real.cos (yaw / 2), 0, 0, Real.sin (yaw / 2)⟩
          (Quaterniond.mul ⟨Real.cos (pitch / 2), 0, Real.sin (pitch / 2), 0⟩
            ⟨Real.cos (roll / 2), Real.sin (roll / 2), 0, 0⟩) ∧
    euler2Quaternion Real.cos Real.sin roll pitch yaw
      = ⟨Real.cos (roll / 2) * Real.cos (pitch / 2) * Real.cos (yaw / 2)
            + Real.sin (roll / 2) * Real.sin (pitch / 2) * Real.sin (yaw / 2),
          Real.sin (roll / 2) * Real.cos (pitch / 2) * Real.cos (yaw / 2)
            - Real.cos (roll / 2) * Real.sin (pitch / 2) * Real.sin (yaw / 2),
          Real.cos (roll / 2) * Real.sin (pitch / 2) * Real.cos (yaw / 2)
            + Real.sin (roll / 2) * Real.cos (pitch / 2) * Real.sin (yaw / 2),
          Real.cos (roll / 2) * Real.cos (pitch / 2) * Real.sin (yaw / 2)
            - Real.sin (roll / 2) * Real.sin (pitch / 2) * Real.cos (yaw / 2)⟩ := by
  constructor
  · simp only [euler2Quaternion, angleAxis, UnitX, UnitY, UnitZ, Quaterniond.mul,
      Quaterniond.mk.injEq]
    refine ⟨?_, ?_, ?_, ?_⟩ <;> ring
  · simp only [euler2Quaternion, angleAxis, UnitX, UnitY, UnitZ, Quaterniond.mul,
      Quaterniond.mk.injEq]
    refine ⟨?_, ?_, ?_, ?_⟩ <;> ring

/-- C15: the nearest-neighbour statistics do not depend on the order of the
distance sequence: for every `D` and every permutation `D2` of `D`, the median,
the robust sums (both overloads, any factor), the robust average and the robust
median computed from `D2` equal those computed from `D`. -/
theorem C15_statistics_invariant_under_permutation (D D2 : List ℚ) (h : D2.Perm D) :
    medianClosestDistance D2 = medianClosestDistance D ∧
    robustSumSquaredError D2 = robustSumSquaredError D ∧
    (∀ factor, robustSumSquaredErrorFactor D2 factor = robustSumSquaredErrorFactor D factor) ∧
    robustAveragedSumSquaredError D2 = robustAveragedSumSquaredError D ∧
    robustMedianClosestDistance D2 = robustMedianClosestDistance D := by
  have hs : sort D2 = sort D := sort_eq_of_perm D2 D h
  refine ⟨?_, ?_, ?_, ?_, ?_⟩
  · simp only [medianClosestDistance, hs]
  · simp only [robustSumSquaredError, hs]
  · intro factor
    simp only [robustSumSquaredErrorFactor, hs]
  · simp only [robustAveragedSumSquaredError, hs]
  · simp only [robustMedianClosestDistance, hs]

/-- Witness of C15: `[9,1,9,3,9]` is a permutation of `[1,3,9,9,9]`. -/
theorem C15_statistics_invariant_under_permutation_witness :
    medianClosestDistance [9, 1, 9, 3, 9] = medianClosestDistance [1, 3, 9, 9, 9] ∧
    robustSumSquaredError [9, 1, 9, 3, 9] = robustSumSquaredError [1, 3, 9, 9, 9] ∧
    robustAveragedSumSquaredError [9, 1, 9, 3, 9]
      = robustAveragedSumSquaredError [1, 3, 9, 9, 9] ∧
    robustMedianClosestDistance [9, 1, 9, 3, 9] = robustMedianClosestDistance [1, 3, 9, 9, 9] :=
  have h := C15_statistics_invariant_under_permutation [1, 3, 9, 9, 9] [9, 1, 9, 3, 9]
    (by decide)
  ⟨h.1, h.2.1, h.2.2.2.1, h.2.2.2.2⟩

/-- C16: the two overloads of `robustSumSquaredError` agree at the default
factor: for every distance sequence `D`, `robustSumSquaredError(D)` equals
`robustSumSquaredError(D, 3)`, whatever the outcome (sum, sentinel, or a read
past the end). -/
theorem C16_overloads_agree_at_factor_three (D : List ℚ) :
    robustSumSquaredError D = robustSumSquaredErrorFactor D 3 := by
  rcases medianBlock_cases (sort D) with ⟨m, hm⟩ | hm
  · rw [(robust_unfold D m hm).1, robustFactor_unfold D 3 m (by norm_num) hm]
  · simp only [robustSumSquaredError, robustSumSquaredErrorFactor, hm]

/-- The rounding function on known values: `float(1/10)`, two ties between
neighbouring `float` integers above `2^24`, a negative number, and an integer
that a `double` holds exactly. -/
theorem roundNearestEven_examples :
    roundNearestEven 24 (1 / 10) = 13421773 / 134217728 ∧
    roundNearestEven 24 16777217 = 16777216 ∧
    roundNearestEven 24 16777219 = 16777220 ∧
    roundNearestEven 24 (-33554438) = -33554440 ∧
    roundNearestEven 24 7 = 7 ∧
    roundNearestEven 53 33554434 = 33554434 := by
  decide!

/-- In exact arithmetic (no rounding of the sum) `medianDistance` reads the same
ranks as the median block on the sorted values. -/
theorem medianDistance_exact (T : List Triplet) :
    medianDistance T = medianBlock (sort (T.map Triplet.value)) := by
  rw [← map_value_sort_triplets, medianBlock_map_value]
  rfl

/-- With `double` arithmetic `medianDistance` agrees, for every list of
triplets, with the median block on a `double` vector of the values (the block
of the robust sums and of the robust average). -/
theorem medianDistanceDouble_eq_block (T : List Triplet) :
    medianDistanceDouble T = medianBlockRounded 53 (sort (T.map Triplet.value)) := by
  rw [← map_value_sort_triplets]
  unfold medianBlockRounded medianDistanceDouble
  simp only [List.length_map, List.getElem?_map]
  split
  · cases (T.insertionSort (fun x y => x.value ≤ y.value))[
      ((T.insertionSort (fun x y => x.value ≤ y.value)).length + 1) / 2]? <;> rfl
  · cases (T.insertionSort (fun x y => x.value ≤ y.value))[
      (T.insertionSort (fun x y => x.value ≤ y.value)).length / 2]? <;>
    cases (T.insertionSort (fun x y => x.value ≤ y.value))[
      (T.insertionSort (fun x y => x.value ≤ y.value)).length / 2 + 1]? <;> rfl

/-- For an odd size the median block performs no addition: the rounded block
and the exact block agree, whatever the precision. -/
theorem medianBlockRounded_odd (p : Nat) (v : List ℚ) (hodd : v.length % 2 = 1) :
    medianBlockRounded p v = medianBlock v := by
  unfold medianBlockRounded medianBlock
  rw [if_pos (by omega), if_pos (by omega)]

/-- With its `float` addition `medianClosestDistance` agrees with the exact
block for every odd size. -/
theorem medianClosestDistanceFloat_odd (D : List ℚ) (hodd : D.length % 2 = 1) :
    medianClosestDistanceFloat D = medianClosestDistance D :=
  medianBlockRounded_odd 24 (sort D) (by rw [sort_length]; exact hodd)

/-- The values of `medianClosestDistance` on the short sequences used for the
median rule are the same with the `float` addition. -/
theorem medianClosestDistanceFloat_examples :
    medianClosestDistanceFloat [1, 2, 3, 4, 5] = Outcome.value 4 ∧
    medianClosestDistanceFloat [1, 2, 3, 4] = Outcome.value (7 / 2) ∧
    medianClosestDistanceFloat [7] = Outcome.outOfBounds ∧
    medianClosestDistanceFloat [1, 2] = Outcome.outOfBounds := by
  decide!

/-- C17 (evaluation of the code): for the triplet values
`[16777218, 1, 16777216, 1]` (all of them `float` values) `medianDistance` and
the median block on a `double` vector add `16777216 + 16777218` as `double` and
return `16777217`; `medianClosestDistance` keeps a `std::vector<float>`, its
`float` addition rounds `33554434` to `33554432`, and it returns `16777216`. -/
theorem C17_float_median_differs_from_double_median :
    medianDistanceDouble [⟨0, 0, 16777218⟩, ⟨0, 1, 1⟩, ⟨1, 0, 16777216⟩, ⟨1, 1, 1⟩]
      = Outcome.value 16777217 ∧
    medianBlockRounded 53 (sort [16777218, 1, 16777216, 1]) = Outcome.value 16777217 ∧
    roundNearestEven 24 (16777216 + 16777218) = 33554432 ∧
    medianClosestDistanceFloat [16777218, 1, 16777216, 1] = Outcome.value 16777216 := by
  decide!

/-- C18: the median block reads only in-bounds positions exactly when the
vector has length at least 3: for every `n` the positions read (`(n+1)/2` for
odd `n`; `n/2` and `n/2+1` for even `n`) are all below `n` if and only if
`3 ≤ n`; and on a vector the block reads past the end if and only if one of
these positions is not below its length, that is, for lengths 0, 1 and 2. -/
theorem C18_median_reads_in_bounds_iff_three_le :
    (∀ n, (∀ i ∈ medianIndices n, i < n) ↔ 3 ≤ n) ∧
    (∀ v : List ℚ, medianBlock v = Outcome.outOfBounds
        ↔ ∃ i ∈ medianIndices v.length, v.length ≤ i) ∧
    (∀ v : List ℚ, medianBlock v = Outcome.outOfBounds ↔ v.length < 3) := by
  have hcode : ∀ v : List ℚ, medianBlock v = Outcome.outOfBounds ↔ v.length < 3 := by
    intro v
    constructor
    · intro hv
      by_contra hlen
      obtain ⟨m, hm⟩ := medianBlock_value_of_three_le v (by omega)
      rw [hm] at hv
      exact Outcome.noConfusion hv
    · exact medianBlock_short v
  refine ⟨medianIndices_lt_iff, fun v => ?_, hcode⟩
  rw [hcode v]
  have h := medianIndices_lt_iff v.length
  constructor
  · intro hlt
    by_contra hno
    have hall : ∀ i ∈ medianIndices v.length, i < v.length := by
      intro i hi
      by_contra hge
      exact hno ⟨i, hi, by omega⟩
    have := h.mp hall
    omega
  · rintro ⟨i, hi, hge⟩
    by_contra hlen
    have := h.mpr (by omega) i hi
    omega

end pso_registration
